import Mathlib

/-!
Verification of the recipe aggregate of the foodee-api backend
(`src/models/recipe.model.ts`), shallowly embedded in Lean 4.

JavaScript plain objects (the results of mongoose `toJSON` / `toObject`
and of aggregation pipelines) are modelled as association lists from
field names to `JVal` values, so that the source's `delete obj.field`
statements and object spreads translate directly.  Mongoose documents
are modelled as typed structures; the database is an explicit `DB`
state, and a method that calls `save` returns the updated `DB` while a
method that does not leaves it untouched.
-/

namespace Foodee

/-- A JavaScript/JSON value. -/
inductive JVal where
  | jnull : JVal
  | jbool (b : Bool) : JVal
  | jnum (q : ℚ) : JVal
  | jstr (s : String) : JVal
  | jarr (xs : List JVal) : JVal
  | jobj (fs : List (String × JVal)) : JVal
deriving Repr

/-- A JavaScript plain object: an association list of named fields. -/
abbrev Doc := List (String × JVal)

/-- Models `delete obj.k`: removes the field named `k`. -/
def deleteField (d : Doc) (k : String) : Doc :=
  d.filter (fun p => p.1 != k)

/-- Property access `obj.k`, `none` when the field is absent. -/
def getField (d : Doc) (k : String) : Option JVal :=
  (d.find? (fun p => p.1 == k)).map (·.2)

/-- A sequence of `delete obj.k` statements, left to right. -/
def deleteFields (d : Doc) (ks : List String) : Doc :=
  ks.foldl deleteField d

/-- Object spread `{...obj, k: v}` when `k` is already a field of `obj`:
the field keeps its position but takes the new value. -/
def setField (d : Doc) (k : String) (v : JVal) : Doc :=
  d.map (fun p => if p.1 == k then (k, v) else p)

/-- A field rendered only when the underlying path is set (mongoose
omits undefined paths from `toJSON`/`toObject` output). -/
def optField (k : String) (v : Option JVal) : Doc :=
  match v with
  | none => []
  | some x => [(k, x)]

/-- An image document (`image.model.ts`): a stored asset with a
provider id and a URL, referenced by recipes as banners. -/
structure Image where
  id : String
  url : String
deriving Repr, DecidableEq

/-- Modelled from the spec: `Image.toEditObject()` (image.model.ts is
not under src/) projects an image to `{id, url}` for client
consumption. -/
def Image.toEditObject (b : Image) : JVal :=
  .jobj [("id", .jstr b.id), ("url", .jstr b.url)]

/-- Modelled from the spec: `Image.checkImagesExist(refs)`
(image.model.ts is not under src/) returns whether every candidate
image reference resolves to an existing stored image. -/
def checkImagesExist (images : List Image) (refs : List String) : Bool :=
  refs.all (fun r => images.any (fun im => im.id == r))

/-- A rating record (`rating.model.ts`, shape as used by the
aggregation pipeline in `updateRating`): keyed by recipe, carrying a
numeric rate value. -/
structure RatingRec where
  id : String
  recipeId : String
  rateValue : ℚ
deriving Repr, DecidableEq

/-- A user, as consumed by the recipe aggregate: an id and the saved
recipe list backing `didSaveRecipe`. -/
structure IUser where
  id : String
  savedRecipes : List String
deriving Repr, DecidableEq

/-- Schema default of the `rating` path: literally
`{ avgRating: 0, total: 0 }` in `RecipeFields.rating` (note `avgRating`,
not `avg`). -/
def ratingDefault : Doc :=
  [("avgRating", .jnum 0), ("total", .jnum 0)]

/-- A recipe document.  Optional fields are paths the schema does not
require to be set (mongoose omits them from JSON output when unset);
`banners` holds the autopopulated image documents; `rating` is a plain
object because the schema default and `updateRating`'s assignment give
it different key sets; `score` is the transient text-search relevance
field. -/
structure Recipe where
  id : String
  name : String
  description : Option String
  status : Option Bool
  category : Option String
  createdBy : String
  servings : ℚ
  time : Option ℚ
  tags : List String
  banners : List Image
  ingredients : List (String × String)
  methods : List String
  rating : Doc
  ratings : List String
  createdAt : String
  updatedAt : String
  score : Option ℚ
deriving Repr

/-- The backing data store. -/
structure DB where
  recipes : List Recipe
  ratings : List RatingRec
  images : List Image
deriving Repr

/-- Models `this.save()`: writes the document back to the store,
replacing the stored document with the same id, appending when new. -/
def saveRecipe (r : Recipe) (db : DB) : DB :=
  if db.recipes.any (fun x => x.id == r.id) then
    { db with recipes := db.recipes.map (fun x => if x.id == r.id then r else x) }
  else
    { db with recipes := db.recipes ++ [r] }

/-- The `image_url` virtual: empty string when there are no banners,
otherwise the url of the first banner. -/
def image_url (r : Recipe) : String :=
  match r.banners with
  | [] => ""
  | b :: _ => b.url

/-- The raw document rendering underlying `toJSON`/`toObject`, before
the transform: every set schema path plus `_id` and timestamps, in
schema order. -/
def toDocBase (r : Recipe) : Doc :=
  [("_id", .jstr r.id),
   ("name", .jstr r.name)] ++
  optField "category" (r.category.map .jstr) ++
  optField "description" (r.description.map .jstr) ++
  [("servings", .jnum r.servings)] ++
  optField "time" (r.time.map .jnum) ++
  [("createdBy", .jstr r.createdBy),
   ("banners", .jarr (r.banners.map (fun b => .jobj [("id", .jstr b.id), ("url", .jstr b.url)]))),
   ("ingredients", .jarr (r.ingredients.map (fun p => .jobj [("quantity", .jstr p.1), ("ingredient", .jstr p.2)]))),
   ("methods", .jarr (r.methods.map .jstr)),
   ("rating", .jobj r.rating),
   ("ratings", .jarr (r.ratings.map .jstr)),
   ("tags", .jarr (r.tags.map .jstr)),
   ("createdAt", .jstr r.createdAt),
   ("updatedAt", .jstr r.updatedAt)] ++
  optField "score" (r.score.map .jnum)

/-- Models `toJSON`: virtuals (`id`, `image_url`) are added, then the
schema transform deletes `_id`, `ratings` and `updatedAt`. -/
def toJSON (r : Recipe) : Doc :=
  deleteFields
    (toDocBase r ++ [("id", .jstr r.id), ("image_url", .jstr (image_url r))])
    ["_id", "ratings", "updatedAt"]

/-- Models `toObject`: the schema configures the identical virtuals
and transform for `toObject` as for `toJSON`. -/
def toObject (r : Recipe) : Doc :=
  toJSON r

/-- Models `didSaveRecipe` on the user context: saved-list membership. -/
def didSaveRecipe (u : IUser) (r : Recipe) : Bool :=
  u.savedRecipes.contains r.id

/-- Models `isCreatedBy`: compares the owner reference against the user id. -/
def isCreatedBy (r : Recipe) (u : IUser) : Bool :=
  r.createdBy == u.id

/-- Models `toJSONFor(user)`: the JSON view spread together with the
`savedByUser` and `createdByUser` flags. -/
def toJSONFor (r : Recipe) (u : IUser) : Doc :=
  toJSON r ++
    [("savedByUser", .jbool (didSaveRecipe u r)),
     ("createdByUser", .jbool (isCreatedBy r u))]

/-- The field deletions shared by `toThumbnailFor` and
`toSearchResultFor`, in source order. -/
def thumbnailDeletes : List String :=
  ["createdBy", "banners", "createdAt", "ingredients", "methods",
   "servings", "description", "category", "tags", "time", "status"]

/-- Models `toThumbnailFor(user?)`: the user-scoped (or anonymous)
JSON view with the detail fields deleted. -/
def toThumbnailFor (r : Recipe) (u : Option IUser) : Doc :=
  deleteFields (match u with | some u => toJSONFor r u | none => toJSON r)
    thumbnailDeletes

/-- Models `toSearchResultFor(user?)`: as the thumbnail (the source
repeats the deletions, with `banners` before `createdAt`/`createdBy`),
plus deletion of `score`. -/
def toSearchResultFor (r : Recipe) (u : Option IUser) : Doc :=
  deleteFields (match u with | some u => toJSONFor r u | none => toJSON r)
    ["banners", "createdAt", "createdBy", "ingredients", "methods",
     "servings", "description", "category", "tags", "time", "status", "score"]

/-- Models `toEditObj()`: the object view with `banners` replaced by
the edit representation of each image, then `createdBy` and
`createdAt` deleted. -/
def toEditObj (r : Recipe) : Doc :=
  deleteFields
    (setField (toObject r) "banners" (.jarr (r.banners.map Image.toEditObject)))
    ["createdBy", "createdAt"]

/-- Models `addRating(ratingId)`: pushes the id onto `ratings` only
when absent, and returns the document without saving. -/
def addRating (r : Recipe) (ratingId : String) : Recipe :=
  if ratingId ∈ r.ratings then r
  else { r with ratings := r.ratings ++ [ratingId] }

/-- Models `addRating` as a state transition on the store: the method
body contains no `save`, so the store is passed through unchanged. -/
def addRatingS (r : Recipe) (ratingId : String) (db : DB) : Recipe × DB :=
  (addRating r ratingId, db)

/-- The `Rating.aggregate` pipeline inside `updateRating`: `$match` the
recipe id, then `$group` by recipe id with `avg: {$avg: rateValue}`
and `total: {$sum: 1}`.  All matched records share the one group key,
so the result is one group, or none when nothing matched. -/
def ratingAggregate (db : DB) (recipeId : String) : List Doc :=
  let matched := db.ratings.filter (fun x => x.recipeId == recipeId)
  if matched.isEmpty then []
  else
    let vals := matched.map (·.rateValue)
    [[("_id", .jstr recipeId),
      ("avg", .jnum (vals.sum / vals.length)),
      ("total", .jnum vals.length)]]

/-- Models `updateRating()`: aggregates, then executes
`delete results[0]._id; this.rating = results[0]; return this.save()`.
When the aggregation result is empty, `results[0]` is `undefined` and
the property delete throws, so the call fails (`none`) before any
assignment or save. -/
def updateRating (r : Recipe) (db : DB) : Option (Recipe × DB) :=
  let results := ratingAggregate db r.id
  match results with
  | [] => none
  | d :: _ =>
    let r' := { r with rating := deleteField d "_id" }
    some (r', saveRecipe r' db)

/-- The `getCategories` aggregation: `$match {status: true, category:
{$ne: null}}`, then `$group` by category with `total: {$sum: 1}` and
`image_url: {$last: {$arrayElemAt: [banners, 0]}}` (the stored banner
reference of the last member of the group; absent when that member has no
banners).  The `$limit` stage is commented out, so `limit` is unused. -/
def getCategories (_limit : Option Nat) (db : DB) : List Doc :=
  let matched := db.recipes.filter (fun r => r.status == some true && r.category.isSome)
  let keys := (matched.filterMap (·.category)).dedup
  keys.map (fun c =>
    let group := matched.filter (fun r => r.category == some c)
    [("_id", .jstr c), ("total", .jnum group.length)] ++
      optField "image_url"
        ((group.getLast?.bind (fun r => r.banners.head?)).map (fun b => .jstr b.id)))

/-- The raw field values submitted to `Recipe.create`. -/
structure RecipeInput where
  name : Option String
  category : Option String
  description : Option String
  servings : Option ℚ
  time : Option ℚ
  createdBy : Option String
  banners : List String
  ingredients : List (String × String)
  methods : Option (List String)
  tags : List String
deriving Repr

/-- Whitespace trimming on both ends, structurally recursive so that
it reduces inside the kernel. -/
def strTrim (s : String) : String :=
  ⟨((s.data.dropWhile Char.isWhitespace).reverse.dropWhile Char.isWhitespace).reverse⟩

/-- ASCII-style lowercasing, structurally recursive so that it reduces
inside the kernel. -/
def strToLower (s : String) : String :=
  ⟨s.data.map Char.toLower⟩

/-- Mongoose `required` on a string path: set and nonempty after
trimming. -/
def requiredStr (o : Option String) : Bool :=
  match o with
  | none => false
  | some s => strTrim s != ""

/-- The offending paths of a `ValidationError`, per schema declaration:
`name`, `category`, `createdBy` required; `servings` required and in
[1,16]; `time` in [1,200] when set; `banners` required (an empty array
fails mongoose's array `required`) and every reference must resolve to
a stored image; per-ingredient `quantity` and `ingredient`
required; `methods` required.  (`minlength`/`maxlength` on the
`banners` array path are string-only options and create no validator;
`description`'s `trim: [true, ...]` is the trim option, not
`required`.) -/
def validationErrors (images : List Image) (f : RecipeInput) : List String :=
  (if requiredStr f.name then [] else ["name"]) ++
  (if requiredStr f.category then [] else ["category"]) ++
  (match f.servings with
   | none => ["servings"]
   | some s => if 1 ≤ s ∧ s ≤ 16 then [] else ["servings"]) ++
  (match f.time with
   | none => []
   | some t => if 1 ≤ t ∧ t ≤ 200 then [] else ["time"]) ++
  (if f.createdBy.isSome then [] else ["createdBy"]) ++
  (if f.banners.isEmpty then ["banners"]
   else if checkImagesExist images f.banners then [] else ["banners"]) ++
  (if f.ingredients.all (fun p => strTrim p.1 != "" && strTrim p.2 != "") then []
   else ["ingredients"]) ++
  (match f.methods with
   | none => ["methods"]
   | some ms => if ms.isEmpty then ["methods"] else [])

/-- Models `Recipe.create(fields)`: validation failure yields a
`ValidationError` listing the offending paths and stores nothing;
success stores a document with `category` lowercased and trimmed,
`name` trimmed, banner references autopopulated from the image store,
the `rating` schema default, and empty `ratings`. -/
def create (images : List Image) (newId : String) (f : RecipeInput) :
    Except (List String) Recipe :=
  if validationErrors images f = [] then
    .ok {
      id := newId
      name := strTrim (f.name.getD "")
      description := f.description.map strTrim
      status := none
      category := f.category.map (fun c => strTrim (strToLower c))
      createdBy := f.createdBy.getD ""
      servings := f.servings.getD 0
      time := f.time
      tags := f.tags.map (fun t => strTrim (strToLower t))
      banners := f.banners.filterMap (fun ref => images.find? (fun im => im.id == ref))
      ingredients := f.ingredients
      methods := f.methods.getD []
      rating := ratingDefault
      ratings := []
      createdAt := ""
      updatedAt := ""
      score := none
    }
  else .error (validationErrors images f)

/-- Discriminates success of a `create` call. -/
def createdOk (e : Except (List String) Recipe) : Bool :=
  match e with
  | .ok _ => true
  | .error _ => false

/-- A stored image used by the concrete scenarios. -/
def imgA : Image :=
  { id := "img1", url := "http://img/1.jpg" }

/-- A concrete public recipe in category soup with one banner. -/
def recipeA : Recipe :=
  { id := "r1", name := "Pho", description := none, status := some true,
    category := some "soup", createdBy := "u1", servings := 2, time := some 30,
    tags := [], banners := [imgA], ingredients := [("1", "noodle")],
    methods := ["boil"], rating := ratingDefault, ratings := [],
    createdAt := "t0", updatedAt := "t0", score := none }

/-- A store holding `recipeA` and no rating records. -/
def dbA : DB :=
  { recipes := [recipeA], ratings := [], images := [imgA] }

/-- A store holding `recipeA` and two ratings for it, with rate values
3 and 5. -/
def dbTwoRatings : DB :=
  { recipes := [recipeA],
    ratings := [{ id := "a", recipeId := "r1", rateValue := 3 },
                { id := "b", recipeId := "r1", rateValue := 5 }],
    images := [imgA] }

/-- The one aggregation entry produced by `getCategories` on `dbA`. -/
def catEntryA : Doc :=
  [("_id", .jstr "soup"), ("total", .jnum 1), ("image_url", .jstr "img1")]

/-- A fully valid create input referencing the stored image. -/
def validInput : RecipeInput :=
  { name := some "Pho", category := some "Soup", description := some "good",
    servings := some 2, time := some 30, createdBy := some "u1",
    banners := ["img1"], ingredients := [("1", "noodle")],
    methods := some ["boil"], tags := ["Viet"] }

/-- The recipe document that `create` produces from `validInput`. -/
def createdA : Recipe :=
  { id := "r9", name := "Pho", description := some "good", status := none,
    category := some "soup", createdBy := "u1", servings := 2, time := some 30,
    tags := ["viet"], banners := [imgA], ingredients := [("1", "noodle")],
    methods := ["boil"], rating := ratingDefault, ratings := [],
    createdAt := "", updatedAt := "", score := none }

/-- Five stored images, so that five banner references can all
resolve. -/
def fiveImages : List Image :=
  [⟨"i1", "u1"⟩, ⟨"i2", "u2"⟩, ⟨"i3", "u3"⟩, ⟨"i4", "u4"⟩, ⟨"i5", "u5"⟩]

/-- A create input that is valid except for carrying five banner
references. -/
def fiveBannerInput : RecipeInput :=
  { name := some "A", category := some "c", description := none,
    servings := some 2, time := none, createdBy := some "u",
    banners := ["i1", "i2", "i3", "i4", "i5"], ingredients := [],
    methods := some ["m"], tags := [] }

/-- The same input with an empty banner list. -/
def zeroBannerInput : RecipeInput :=
  { fiveBannerInput with banners := [] }

/-- Deleting a field makes it absent. -/
theorem getField_deleteField_self (d : Doc) (k : String) :
    getField (deleteField d k) k = none := by
  induction d with
  | nil => rfl
  | cons p d ih =>
    by_cases hp : p.1 = k
    · simp only [deleteField, List.filter_cons, bne_iff_ne, ne_eq, hp, not_true_eq_false,
        if_neg, not_not, not_false_eq_true]
      exact ih
    · simp only [deleteField, List.filter_cons, bne_iff_ne, ne_eq, hp,
        not_false_eq_true, if_pos]
      simp only [getField, List.find?,
        show (p.1 == k) = false from beq_eq_false_iff_ne.2 hp]
      exact ih

/-- Deleting one field leaves the others untouched. -/
theorem getField_deleteField_ne (d : Doc) {k k' : String} (h : k ≠ k') :
    getField (deleteField d k') k = getField d k := by
  induction d with
  | nil => rfl
  | cons p d ih =>
    by_cases hp : p.1 = k'
    · have hk : (p.1 == k) = false := beq_eq_false_iff_ne.2 (by simp [hp]; exact (h ·.symm))
      simp only [deleteField, List.filter_cons, bne_iff_ne, ne_eq, hp, not_true_eq_false,
        if_neg, not_not]
      simpa [getField, List.find?, hk, deleteField] using ih
    · simp only [deleteField, List.filter_cons, bne_iff_ne, ne_eq, hp, not_false_eq_true,
        if_pos]
      by_cases hpk : p.1 = k
      · simp [getField, List.find?, show (p.1 == k) = true from beq_iff_eq.2 hpk]
      · simpa [getField, List.find?, show (p.1 == k) = false from beq_eq_false_iff_ne.2 hpk,
          deleteField] using ih

/-- A chain of deletions leaves uninvolved fields untouched. -/
theorem getField_deleteFields_not_mem (d : Doc) (ks : List String) (k : String)
    (h : k ∉ ks) : getField (deleteFields d ks) k = getField d k := by
  induction ks generalizing d with
  | nil => rfl
  | cons k₀ ks ih =>
    have hk : k ≠ k₀ := fun hh => h (hh ▸ List.mem_cons_self k₀ ks)
    have hks : k ∉ ks := fun hh => h (List.mem_cons_of_mem k₀ hh)
    calc getField (deleteFields (deleteField d k₀) ks) k
        = getField (deleteField d k₀) k := ih _ hks
      _ = getField d k := getField_deleteField_ne d hk

/-- Every deleted field is absent from the result of a deletion chain. -/
theorem getField_deleteFields_mem (d : Doc) (ks : List String) (k : String)
    (h : k ∈ ks) : getField (deleteFields d ks) k = none := by
  induction ks generalizing d with
  | nil => cases h
  | cons k₀ ks ih =>
    by_cases hk : k ∈ ks
    · exact ih _ hk
    · have : k = k₀ := by
        rcases List.mem_cons.1 h with h' | h'
        · exact h'
        · exact absurd h' hk
      subst this
      calc getField (deleteFields (deleteField d k) ks) k
          = getField (deleteField d k) k := getField_deleteFields_not_mem _ _ _ hk
        _ = none := getField_deleteField_self d k

/-- Overwriting an existing field stores the new value. -/
theorem getField_setField_self (d : Doc) (k : String) (v : JVal)
    (h : (getField d k).isSome) : getField (setField d k v) k = some v := by
  induction d with
  | nil => simp [getField] at h
  | cons p d ih =>
    by_cases hp : p.1 = k
    · simp [getField, setField, List.find?, show (p.1 == k) = true from beq_iff_eq.2 hp]
    · have hk : (p.1 == k) = false := beq_eq_false_iff_ne.2 hp
      simp only [getField, List.find?, hk] at h
      simpa [getField, setField, List.find?, hk] using ih h

/-- Overwriting one field leaves the others untouched. -/
theorem getField_setField_ne (d : Doc) {k k' : String} (v : JVal) (h : k ≠ k') :
    getField (setField d k' v) k = getField d k := by
  induction d with
  | nil => rfl
  | cons p d ih =>
    by_cases hp : p.1 = k'
    · have hk : (p.1 == k) = false := beq_eq_false_iff_ne.2 (by simp [hp]; exact (h ·.symm))
      simp [getField, setField, List.find?, hp, show (k' == k) = false from
        beq_eq_false_iff_ne.2 (h ·.symm), hk] at ih ⊢
      exact ih
    · have hpk : (p.1 == k') = false := beq_eq_false_iff_ne.2 hp
      by_cases hq : p.1 = k
      · simp [getField, setField, List.find?, hpk, show (p.1 == k) = true from beq_iff_eq.2 hq]
      · have hk : (p.1 == k) = false := beq_eq_false_iff_ne.2 hq
        simpa [getField, setField, List.find?, hpk, hk] using ih

/-- Field lookup over an object concatenation takes the first hit. -/
theorem getField_append (d₁ d₂ : Doc) (k : String) :
    getField (d₁ ++ d₂) k =
      match getField d₁ k with
      | some v => some v
      | none => getField d₂ k := by
  induction d₁ with
  | nil => simp [getField]
  | cons p d ih =>
    by_cases hp : p.1 = k
    · simp [getField, List.find?, show (p.1 == k) = true from beq_iff_eq.2 hp]
    · have hk : (p.1 == k) = false := beq_eq_false_iff_ne.2 hp
      simpa [getField, List.find?, hk] using ih

/-- The `banners` field of the raw document rendering is always
present and holds the rendered banner images. -/
theorem getField_toDocBase_banners (r : Recipe) :
    getField (toDocBase r) "banners" =
      some (.jarr (r.banners.map
        (fun b => .jobj [("id", .jstr b.id), ("url", .jstr b.url)]))) := by
  unfold toDocBase
  rcases r.category with _ | c <;> rcases r.description with _ | d <;>
    rcases r.time with _ | t <;>
    simp [getField, optField, List.find?]

/-- C4: for every recipe and every (possibly absent) user, the outputs
of `toThumbnailFor` and `toSearchResultFor` contain none of the fields
`banners`, `ingredients`, `methods`, `servings`, `description`,
`category`, `tags`, `time`, `status`, `createdAt`, and the output of
`toSearchResultFor` additionally never contains `score`. -/
theorem C4_projections_strip_detail_fields (r : Recipe) (u : Option IUser) :
    (getField (toThumbnailFor r u) "banners" = none ∧
     getField (toThumbnailFor r u) "ingredients" = none ∧
     getField (toThumbnailFor r u) "methods" = none ∧
     getField (toThumbnailFor r u) "servings" = none ∧
     getField (toThumbnailFor r u) "description" = none ∧
     getField (toThumbnailFor r u) "category" = none ∧
     getField (toThumbnailFor r u) "tags" = none ∧
     getField (toThumbnailFor r u) "time" = none ∧
     getField (toThumbnailFor r u) "status" = none ∧
     getField (toThumbnailFor r u) "createdAt" = none) ∧
    (getField (toSearchResultFor r u) "banners" = none ∧
     getField (toSearchResultFor r u) "ingredients" = none ∧
     getField (toSearchResultFor r u) "methods" = none ∧
     getField (toSearchResultFor r u) "servings" = none ∧
     getField (toSearchResultFor r u) "description" = none ∧
     getField (toSearchResultFor r u) "category" = none ∧
     getField (toSearchResultFor r u) "tags" = none ∧
     getField (toSearchResultFor r u) "time" = none ∧
     getField (toSearchResultFor r u) "status" = none ∧
     getField (toSearchResultFor r u) "createdAt" = none ∧
     getField (toSearchResultFor r u) "score" = none) := by
  constructor
  · refine ⟨?_, ?_, ?_, ?_, ?_, ?_, ?_, ?_, ?_, ?_⟩ <;>
      exact getField_deleteFields_mem _ _ _ (by decide)
  · refine ⟨?_, ?_, ?_, ?_, ?_, ?_, ?_, ?_, ?_, ?_, ?_⟩ <;>
      exact getField_deleteFields_mem _ _ _ (by decide)

/-- C5: `addRating` is an idempotent, non-persisting set insert:
applying it twice equals applying it once, the store is untouched, and
after the call the id occurs `max (previous count) 1` times — in
particular at most once when it was not duplicated before. -/
theorem C5_addRating_idempotent_no_save (r : Recipe) (i : String) (db : DB) :
    addRating (addRating r i) i = addRating r i ∧
    (addRatingS r i db).2 = db ∧
    (addRating r i).ratings.count i = max (r.ratings.count i) 1 := by
  refine ⟨?_, rfl, ?_⟩
  · by_cases h : i ∈ r.ratings
    · simp [addRating, h]
    · simp [addRating, h]
  · by_cases h : i ∈ r.ratings
    · have h1 : 0 < r.ratings.count i := List.count_pos_iff.2 h
      simp only [addRating, if_pos h]
      omega
    · have h0 : r.ratings.count i = 0 := List.count_eq_zero.2 h
      simp [addRating, h, List.count_append, h0]

/-- C8: for every recipe, `toEditObj` contains neither `createdBy` nor
`createdAt`, and its `banners` field is the list of the banner images
projected to their `{id, url}` edit representation. -/
theorem C8_toEditObj_shape (r : Recipe) :
    getField (toEditObj r) "createdBy" = none ∧
    getField (toEditObj r) "createdAt" = none ∧
    getField (toEditObj r) "banners" =
      some (.jarr (r.banners.map Image.toEditObject)) := by
  refine ⟨getField_deleteFields_mem _ _ _ (by decide),
    getField_deleteFields_mem _ _ _ (by decide), ?_⟩
  have hb : (getField (toObject r) "banners").isSome := by
    unfold toObject toJSON
    rw [getField_deleteFields_not_mem _ _ _
        (show "banners" ∉ ["_id", "ratings", "updatedAt"] by decide),
      getField_append, getField_toDocBase_banners]
    rfl
  unfold toEditObj
  rw [getField_deleteFields_not_mem _ _ _
      (show "banners" ∉ ["createdBy", "createdAt"] by decide)]
  exact getField_setField_self _ _ _ hb

/-- C9: when no rating record matches the recipe, the aggregation in
`updateRating` is empty and dereferencing its first element throws, so
the call fails before assigning the rating summary or saving. -/
theorem C9_updateRating_no_ratings_throws (r : Recipe) (db : DB)
    (h : db.ratings.filter (fun x => x.recipeId == r.id) = []) :
    updateRating r db = none := by
  simp [updateRating, ratingAggregate, h]

/-- Witness for C9 on the concrete store with no rating records. -/
theorem C9_witness :
    dbA.ratings.filter (fun x => x.recipeId == recipeA.id) = [] ∧
    updateRating recipeA dbA = none :=
  ⟨rfl, C9_updateRating_no_ratings_throws recipeA dbA rfl⟩

/-- C10: every recipe produced by `create` carries the schema default
rating object `{avgRating: 0, total: 0}`, so its `avg` field is absent
while `avgRating` and `total` are zero. -/
theorem C10_created_rating_default (images : List Image) (newId : String)
    (f : RecipeInput) (r' : Recipe) (h : create images newId f = .ok r') :
    r'.rating = ratingDefault ∧
    getField r'.rating "avg" = none ∧
    getField r'.rating "avgRating" = some (.jnum 0) ∧
    getField r'.rating "total" = some (.jnum 0) := by
  unfold create at h
  split at h
  · injection h with h'
    subst h'
    exact ⟨rfl, rfl, rfl, rfl⟩
  · exact Except.noConfusion h

/-- Witness for C10 on a concrete successful create. -/
theorem C10_witness :
    create [imgA] "r9" validInput = Except.ok createdA ∧
    (createdA.rating = ratingDefault ∧
     getField createdA.rating "avg" = none ∧
     getField createdA.rating "avgRating" = some (.jnum 0) ∧
     getField createdA.rating "total" = some (.jnum 0)) :=
  ⟨rfl, C10_created_rating_default [imgA] "r9" validInput createdA rfl⟩

/-- C3: when the rating records matching a recipe have rate values
[3, 5], `updateRating` sets the rating summary to `{avg: 4, total: 2}`
and persists the recipe through `save`. -/
theorem C3_updateRating_avg_total (r : Recipe) (db : DB)
    (h : (db.ratings.filter (fun x => x.recipeId == r.id)).map
      (fun x => x.rateValue) = [3, 5]) :
    updateRating r db =
      some ({ r with rating := [("avg", JVal.jnum 4), ("total", JVal.jnum 2)] },
        saveRecipe { r with rating := [("avg", JVal.jnum 4), ("total", JVal.jnum 2)] } db) := by
  rcases hl : db.ratings.filter (fun x => x.recipeId == r.id) with _ | ⟨a, t⟩
  · rw [hl] at h; cases h
  · rcases t with _ | ⟨b, t2⟩
    · rw [hl] at h; simp at h
    · rcases t2 with _ | ⟨c, t3⟩
      · rw [hl] at h
        simp only [List.map_cons, List.map_nil, List.cons.injEq, and_true] at h
        obtain ⟨h3, h5⟩ := h
        have hres : ratingAggregate db r.id =
            [[("_id", JVal.jstr r.id), ("avg", JVal.jnum 4), ("total", JVal.jnum 2)]] := by
          norm_num [ratingAggregate, hl, h3, h5, List.sum_cons, List.sum_nil]
        simp only [updateRating, hres]
        rfl
      · rw [hl] at h; simp at h

/-- Witness for C3 on the concrete store with ratings 3 and 5. -/
theorem C3_witness :
    (dbTwoRatings.ratings.filter (fun x => x.recipeId == recipeA.id)).map
      (fun x => x.rateValue) = [3, 5] ∧
    updateRating recipeA dbTwoRatings =
      some ({ recipeA with rating := [("avg", JVal.jnum 4), ("total", JVal.jnum 2)] },
        saveRecipe { recipeA with rating := [("avg", JVal.jnum 4), ("total", JVal.jnum 2)] }
          dbTwoRatings) :=
  ⟨by decide, C3_updateRating_avg_total recipeA dbTwoRatings (by decide)⟩

/-- C6: a valid input whose 1–4 banner references all resolve creates
successfully and the derived `image_url` is the URL of the first
banner; on any recipe with no banners the virtual is the empty
string. -/
theorem C6_create_success_image_url (images : List Image) (newId : String)
    (f : RecipeInput) (b : String) (rest : List String) (im : Image)
    (hname : requiredStr f.name = true)
    (hcat : requiredStr f.category = true)
    (hserv : ∃ s, f.servings = some s ∧ 1 ≤ s ∧ s ≤ 16)
    (htime : ∀ t, f.time = some t → 1 ≤ t ∧ t ≤ 200)
    (howner : f.createdBy.isSome = true)
    (hing : f.ingredients.all
      (fun p => strTrim p.1 != "" && strTrim p.2 != "") = true)
    (hmeth : ∃ ms, f.methods = some ms ∧ ms ≠ [])
    (hbanners : f.banners = b :: rest)
    (_hlen : f.banners.length ≤ 4)
    (hex : checkImagesExist images f.banners = true)
    (him : images.find? (fun i => i.id == b) = some im) :
    (create images newId f).map image_url = .ok im.url ∧
    ∀ r : Recipe, r.banners = [] → image_url r = "" := by
  obtain ⟨s, hs, hs1, hs16⟩ := hserv
  obtain ⟨ms, hms, hmsne⟩ := hmeth
  have hmse : ms.isEmpty = false := by
    cases ms with
    | nil => exact absurd rfl hmsne
    | cons x xs => rfl
  rw [hbanners] at hex
  have herr : validationErrors images f = [] := by
    rcases ht : f.time with _ | t
    · simp [validationErrors, hname, hcat, hs, ht, howner, hing, hms, hmse,
        hbanners, hex, hs1, hs16]
    · obtain ⟨ht1, ht200⟩ := htime t ht
      simp [validationErrors, hname, hcat, hs, ht, howner, hing, hms, hmse,
        hbanners, hex, hs1, hs16, ht1, ht200]
  constructor
  · unfold create
    rw [if_pos herr]
    simp [Except.map, image_url, hbanners, List.filterMap_cons, him]
  · intro r hr
    simp [image_url, hr]

/-- Witness for C6 on a concrete valid input with one banner. -/
theorem C6_witness :
    requiredStr validInput.name = true ∧
    checkImagesExist [imgA] validInput.banners = true ∧
    ((create [imgA] "r9" validInput).map image_url = Except.ok imgA.url ∧
     ∀ r : Recipe, r.banners = [] → image_url r = "") := by
  refine ⟨rfl, rfl,
    C6_create_success_image_url [imgA] "r9" validInput "img1" [] imgA rfl rfl
      ⟨2, rfl, by norm_num, by norm_num⟩ ?_ rfl rfl ⟨["boil"], rfl, by decide⟩
      rfl (by decide) rfl rfl⟩
  intro t ht
  have h30 : some (30 : ℚ) = some t := ht
  obtain rfl : (30 : ℚ) = t := Option.some.inj h30
  exact ⟨by norm_num, by norm_num⟩

/-- C7: the `limit` argument of `getCategories` has no effect (the
limiting stage is disabled), and the result is complete — it has an
entry for a category exactly when some stored public recipe carries
that category. -/
theorem C7_getCategories_limit_irrelevant (l₁ l₂ : Option Nat) (db : DB) :
    getCategories l₁ db = getCategories l₂ db ∧
    ∀ c : String,
      ((∃ e ∈ getCategories l₁ db, getField e "_id" = some (.jstr c)) ↔
        ∃ r ∈ db.recipes, r.status = some true ∧ r.category = some c) := by
  refine ⟨rfl, fun c => ?_⟩
  constructor
  · rintro ⟨e, he, hid⟩
    simp only [getCategories, List.mem_map] at he
    obtain ⟨c', hc', rfl⟩ := he
    have hcc : some (JVal.jstr c') = some (JVal.jstr c) := hid
    obtain rfl : c' = c := JVal.jstr.inj (Option.some.inj hcc)
    simp only [List.mem_dedup, List.mem_filterMap, List.mem_filter] at hc'
    obtain ⟨r, ⟨hrm, hp⟩, hcat⟩ := hc'
    simp only [Bool.and_eq_true, beq_iff_eq, Option.isSome_iff_exists] at hp
    exact ⟨r, hrm, hp.1, hcat⟩
  · rintro ⟨r, hr, hst, hcat⟩
    have hmem : c ∈ ((db.recipes.filter
        (fun r => r.status == some true && r.category.isSome)).filterMap
        (fun r => r.category)).dedup := by
      simp only [List.mem_dedup, List.mem_filterMap, List.mem_filter]
      exact ⟨r, ⟨hr, by simp [hst, hcat]⟩, hcat⟩
    simp only [getCategories, List.mem_map]
    exact ⟨_, ⟨c, hmem, rfl⟩, rfl⟩

/-- C1 failing input: on a store with one public recipe in category
soup, `getCategories` returns one aggregation entry, keyed `_id` with
no `name` field — the declared `{name, total, image_url}` shape is not
what the pipeline produces. -/
theorem C1_getCategories_entry_keyed_by_id :
    getCategories none dbA = [catEntryA] ∧
    getField catEntryA "name" = none ∧
    getField catEntryA "_id" = some (.jstr "soup") ∧
    getField catEntryA "total" = some (.jnum 1) ∧
    getField catEntryA "image_url" = some (.jstr "img1") :=
  ⟨rfl, rfl, rfl, rfl, rfl⟩

/-- C2 failing input: a create input with five banner references, all
resolving to stored images, is accepted (`minlength`/`maxlength` on an
array path create no validator), while the zero-banner input fails
with a `ValidationError` on `banners` as claimed. -/
theorem C2_five_banners_accepted :
    createdOk (create fiveImages "r9" fiveBannerInput) = true ∧
    create fiveImages "r9" zeroBannerInput = .error ["banners"] :=
  ⟨rfl, rfl⟩

end Foodee
